import Mathlib

/-!
Verification of the feature work-queue and progress-diff engine of the
autonomous-coding repository (`src/api/routes.py`, `src/progress.py`).

The Python source is shallowly embedded: the SQLite-backed record store is a
`List Feature` (the rows), SQL queries become list operations, and the
stateful diff cycle `send_progress_webhook` becomes a pure function from its
inputs (webhook configuration, the stats counts, the cache file contents, the
result of the `/features/all-passing` fetch, and the sink outcome) to the
notification it delivers and the cache file it leaves behind.
-/

/-- A row of the `features` table (`src/api/database.py` via `routes.py`):
integer primary key `id`, integer `priority`, text fields, and the `passes`
boolean. -/
structure Feature where
  id : Nat
  priority : Int
  category : String
  name : String
  description : String
  steps : List String
  passes : Bool
deriving DecidableEq

/-- Boolean form of the SQL ordering `ORDER BY priority ASC, id ASC`
used by `get_next_feature` and `list_features` in `src/api/routes.py`. -/
def featureLeB (a b : Feature) : Bool :=
  decide (a.priority < b.priority) ||
    (decide (a.priority = b.priority) && decide (a.id ≤ b.id))

/-- Propositional form of the `(priority, id)` lexicographic order. -/
def lexLe (a b : Feature) : Prop :=
  a.priority < b.priority ∨ (a.priority = b.priority ∧ a.id ≤ b.id)

/-- Selection of the first row of `ORDER BY priority ASC, id ASC`: a running
minimum over the rows.  `none` as accumulator means no row seen yet. -/
def selectMin : Option Feature → List Feature → Option Feature
  | acc, [] => acc
  | none, f :: rest => selectMin (some f) rest
  | some g, f :: rest => selectMin (some (if featureLeB g f then g else f)) rest

/-- Embedding of `get_next_feature` (`src/api/routes.py:179-200`): the row with
`passes = false` minimizing `(priority, id)`; `none` models the 404 response
when every feature passes. -/
def get_next_feature (db : List Feature) : Option Feature :=
  selectMin none (db.filter (fun f => f.passes == false))

/-- Insertion step for the insertion sort implementing
`ORDER BY priority ASC, id ASC` over a result set. -/
def insertFeature (f : Feature) : List Feature → List Feature
  | [] => [f]
  | g :: rest => if featureLeB f g then f :: g :: rest else g :: insertFeature f rest

/-- Sorting a result set by `(priority, id)`, as the SQL `ORDER BY` does. -/
def sortFeatures : List Feature → List Feature
  | [] => []
  | f :: rest => insertFeature f (sortFeatures rest)

/-- The filter predicate of `list_features`: optional `passes` filter and
optional `category` filter (`src/api/routes.py:152-155`). -/
def matchesFilters (passes : Option Bool) (category : Option String) (f : Feature) : Bool :=
  (match passes with
   | none => true
   | some b => f.passes == b) &&
  (match category with
   | none => true
   | some c => f.category == c)

/-- Result of a `GET /features` request.  `validationError` models FastAPI
rejecting the request with HTTP 422 when a `Query` constraint
(`limit: ge=1, le=5`, `offset: ge=0`) is violated. -/
inductive ListResult
  | validationError
  | page (features : List Feature) (total : Nat) (limit : Int) (offset : Int)
deriving DecidableEq

/-- Embedding of `list_features` (`src/api/routes.py:127-177`).  The declared
parameter constraints `limit: int = Query(5, ge=1, le=5)` and
`offset: int = Query(0, ge=0)` make FastAPI reject out-of-range values with a
validation error before the handler body runs; in-range requests filter, count
the filtered total, then order and paginate.  `shuffle` stands for the
`func.random()` ordering used when `random` is true. -/
def list_features (db : List Feature) (limit offset : Int)
    (passes : Option Bool) (category : Option String)
    (random : Bool) (shuffle : List Feature → List Feature) : ListResult :=
  if 1 ≤ limit ∧ limit ≤ 5 ∧ 0 ≤ offset then
    let q := db.filter (matchesFilters passes category)
    let total := q.length
    let page :=
      if random then (shuffle q).take limit.toNat
      else ((sortFeatures q).drop offset.toNat).take limit.toNat
    .page page total limit offset
  else .validationError

/-- Error outcomes of the feature endpoints: 404 and the 400 returned by
`skip_feature` for a passing feature. -/
inductive ApiError
  | notFound
  | invalidState
deriving DecidableEq

/-- Body of the `skip_feature` response (`src/api/routes.py:92-98`); the
human-readable `message` string is not modelled. -/
structure SkipResponse where
  id : Nat
  name : String
  old_priority : Int
  new_priority : Int
deriving DecidableEq

/-- The row returned by
`db.query(Feature.priority).order_by(Feature.priority.desc()).first()`:
the maximum priority over all rows, `none` when the table is empty. -/
def maxPriorityRow : List Feature → Option Int
  | [] => none
  | f :: rest =>
    match maxPriorityRow rest with
    | none => some f.priority
    | some m => some (max f.priority m)

/-- The commit of `feature.priority = new_priority`: rewrite the priority of
the first row whose `id` matches (ids are the primary key, so at most one row
matches in a well-formed store). -/
def setPriorityFirst : List Feature → Nat → Int → List Feature
  | [], _, _ => []
  | f :: rest, fid, p =>
    if f.id == fid then { f with priority := p } :: rest
    else f :: setPriorityFirst rest fid p

/-- Embedding of `skip_feature` (`src/api/routes.py:323-363`): look up the
feature, reject with 404 if absent, reject with 400 if it already passes,
otherwise set its priority to `max_priority + 1` and report old and new
priorities. -/
def skip_feature (db : List Feature) (fid : Nat) :
    Except ApiError (List Feature × SkipResponse) :=
  match db.find? (fun f => f.id == fid) with
  | none => .error .notFound
  | some f =>
    if f.passes then .error .invalidState
    else
      let newPriority :=
        match maxPriorityRow db with
        | some m => m + 1
        | none => 1
      .ok (setPriorityFirst db fid newPriority,
        { id := f.id, name := f.name, old_priority := f.priority,
          new_priority := newPriority })

/-- The store as it stands after a `skip` request: unchanged when the request
errors, the rewritten store when it succeeds. -/
def skip_feature_store (db : List Feature) (fid : Nat) : List Feature :=
  match skip_feature db fid with
  | .ok r => r.1
  | .error _ => db

/-- A record of the `/features/all-passing` response
(`src/api/routes.py:79-83`): id, category and name of a passing feature. -/
structure PassingFeature where
  id : Nat
  category : String
  name : String
deriving DecidableEq

/-- Persisted Progress Snapshot: the JSON object
`{"count": ..., "passing_ids": [...]}` that `send_progress_webhook` writes to
`.progress_cache` (`src/progress.py:166-182`). -/
structure Snapshot where
  count : Nat
  passing_ids : List Nat
deriving DecidableEq

/-- State of the `.progress_cache` file as the diff engine finds or leaves it:
missing, present but unparseable, or a parsed snapshot. -/
inductive CacheFile
  | absent
  | corrupt
  | valid (s : Snapshot)
deriving DecidableEq

/-- Reading the previous progress (`src/progress.py:103-114`): a missing file
gives `(0, [])`; a parse failure is caught, leaving `previous = 0` and the
initial empty `previous_passing_ids`; a parsed file gives its contents. -/
def loadPrev : CacheFile → Nat × List Nat
  | .absent => (0, [])
  | .corrupt => (0, [])
  | .valid s => (s.count, s.passing_ids)

/-- The string built for a newly passing feature
(`src/progress.py:135-140`): `"category name"` when the category is a
non-empty (truthy) string, else just the name. -/
def describe (f : PassingFeature) : String :=
  if f.category ≠ "" then f.category ++ " " ++ f.name else f.name

/-- The loop over the `/features/all-passing` response
(`src/progress.py:129-140`): accumulates every id into
`current_passing_ids`, and, when the cache is not in the legacy format,
accumulates a description of each feature whose id was not previously
passing into `completed_tests`. -/
def processFeatures (previousPassingIds : List Nat) (isOldCacheFormat : Bool) :
    List PassingFeature → List Nat × List String
  | [] => ([], [])
  | f :: rest =>
    let r := processFeatures previousPassingIds isOldCacheFormat rest
    if !isOldCacheFormat && !previousPassingIds.contains f.id then
      (f.id :: r.1, describe f :: r.2)
    else
      (f.id :: r.1, r.2)

/-- The webhook payload fields the diff engine computes
(`src/progress.py:144-154`).  The float `percentage` field and the timestamp
are not modelled. -/
structure WebhookPayload where
  passing : Nat
  total : Nat
  previous_passing : Nat
  tests_completed_this_session : Int
  completed_tests : List String
deriving DecidableEq

/-- Observable outcome of one diff-engine invocation: the payload handed to
the notification sink together with the sink outcome (or `none` when no
notification was attempted), and the cache file left on disk. -/
structure ProgressResult where
  delivery : Option (WebhookPayload × Bool)
  finalCache : CacheFile
deriving DecidableEq

/-- The `passing > previous` branch of `send_progress_webhook`
(`src/progress.py:117-169`): detect the legacy cache format, process the
fetched passing features (an API failure is caught, leaving both accumulators
empty — modelled by `fetch = none` contributing `[]`), build the payload,
attempt delivery (whose outcome `sinkOk` is caught and ignored), and
unconditionally rewrite the cache with the current count and ids. -/
def notifyCycle (passing total previous : Nat) (previousPassingIds : List Nat)
    (fetch : Option (List PassingFeature)) (sinkOk : Bool) : ProgressResult :=
  let isOldCacheFormat := previousPassingIds.isEmpty && decide (0 < previous)
  let proc := processFeatures previousPassingIds isOldCacheFormat (fetch.getD [])
  { delivery := some
      ({ passing := passing, total := total, previous_passing := previous,
         tests_completed_this_session := (passing : Int) - (previous : Int),
         completed_tests := proc.2 }, sinkOk),
    finalCache := .valid ⟨passing, proc.1⟩ }

/-- The `else` branch of `send_progress_webhook` (`src/progress.py:170-182`):
no notification; when the cache file does not yet exist, persist an initial
snapshot from the current passing ids (an API failure is caught, leaving the
id list empty), otherwise leave the file untouched. -/
def bootstrapCycle (passing : Nat) (cache : CacheFile)
    (fetch : Option (List PassingFeature)) : ProgressResult :=
  match cache with
  | .absent =>
    { delivery := none,
      finalCache := .valid ⟨passing, (fetch.getD []).map PassingFeature.id⟩ }
  | c => { delivery := none, finalCache := c }

/-- Embedding of `send_progress_webhook` (`src/progress.py:98-182`).
Inputs: whether `PROGRESS_N8N_WEBHOOK_URL` is configured, the `(passing,
total)` counts from the stats endpoint, the cache file state, the
`/features/all-passing` response (`none` models the request raising), and
whether the sink call succeeds. -/
def send_progress_webhook (webhookConfigured : Bool) (passing total : Nat)
    (cache : CacheFile) (fetch : Option (List PassingFeature)) (sinkOk : Bool) :
    ProgressResult :=
  if webhookConfigured then
    if (loadPrev cache).1 < passing then
      notifyCycle passing total (loadPrev cache).1 (loadPrev cache).2 fetch sinkOk
    else
      bootstrapCycle passing cache fetch
  else { delivery := none, finalCache := cache }

/-- Concrete three-row store used by witness theorems for the skip endpoint:
two pending features and one passing feature. -/
def demoSkipF1 : Feature := ⟨1, 1, "core", "alpha", "first demo feature", ["step"], false⟩

/-- Second row of the demo skip store. -/
def demoSkipF2 : Feature := ⟨2, 2, "core", "beta", "second demo feature", ["step"], false⟩

/-- Third row of the demo skip store; the only passing feature. -/
def demoSkipF3 : Feature := ⟨3, 3, "core", "gamma", "third demo feature", ["step"], true⟩

/-- The demo store for the skip endpoint witnesses. -/
def demoSkipDb : List Feature := [demoSkipF1, demoSkipF2, demoSkipF3]

/-- Pending row with the larger priority in the next-pending demo store. -/
def demoNextF1 : Feature := ⟨1, 5, "core", "one", "demo", ["s"], false⟩

/-- The minimum pending row of the next-pending demo store. -/
def demoNextF2 : Feature := ⟨2, 3, "core", "two", "demo", ["s"], false⟩

/-- Passing row sharing the minimum priority in the next-pending demo store. -/
def demoNextF3 : Feature := ⟨3, 3, "core", "three", "demo", ["s"], true⟩

/-- The demo store for the next-pending witness. -/
def demoNextDb : List Feature := [demoNextF1, demoNextF2, demoNextF3]

/-- Row builder for the six-row pagination demo store. -/
def demoListF (n : Nat) : Feature := ⟨n, (n : Int), "c", "item", "demo", ["s"], false⟩

/-- Six-row store exercising the pagination cap. -/
def demoListDb : List Feature :=
  [demoListF 1, demoListF 2, demoListF 3, demoListF 4, demoListF 5, demoListF 6]

/-- The id accumulator of the feature loop is always the full list of fetched
ids, in response order (`current_passing_ids` in `src/progress.py:131`). -/
theorem processFeatures_fst (p : List Nat) (o : Bool) (fs : List PassingFeature) :
    (processFeatures p o fs).1 = fs.map PassingFeature.id := by
  induction fs with
  | nil => rfl
  | cons f rest ih =>
    simp only [processFeatures, List.map_cons]
    split <;> simp [ih]

/-- Under the legacy cache format, the loop names no completed tests. -/
theorem processFeatures_snd_legacy (p : List Nat) (fs : List PassingFeature) :
    (processFeatures p true fs).2 = [] := by
  induction fs with
  | nil => rfl
  | cons f rest ih => simpa [processFeatures] using ih

/-- Under a fresh cache format, the loop names exactly the fetched features
whose ids were not previously passing. -/
theorem processFeatures_snd_fresh (p : List Nat) (fs : List PassingFeature) :
    (processFeatures p false fs).2
      = (fs.filter (fun f => !p.contains f.id)).map describe := by
  induction fs with
  | nil => rfl
  | cons f rest ih =>
    by_cases hm : f.id ∈ p
    · simp [processFeatures, List.filter_cons, hm, ih]
    · simp [processFeatures, List.filter_cons, hm, ih]

/-- Membership in the named-new-ids list is exactly membership in the set
difference of current ids minus previous ids. -/
theorem newIds_eq_diff (p : List Nat) (fs : List PassingFeature) (i : Nat) :
    i ∈ (fs.filter (fun f => !p.contains f.id)).map PassingFeature.id ↔
      (i ∈ fs.map PassingFeature.id ∧ i ∉ p) := by
  simp only [List.mem_map, List.mem_filter, Bool.not_eq_true']
  constructor
  · rintro ⟨f, ⟨hf, hnc⟩, rfl⟩
    exact ⟨⟨f, hf, rfl⟩, by simpa using hnc⟩
  · rintro ⟨⟨f, hf, rfl⟩, hnp⟩
    exact ⟨f, ⟨hf, by simpa using hnp⟩, rfl⟩

/-- When the passing count strictly exceeds the cached count, the engine runs
the notify branch. -/
theorem send_notify (passing total : Nat) (cache : CacheFile)
    (fetch : Option (List PassingFeature)) (sinkOk : Bool)
    (h : (loadPrev cache).1 < passing) :
    send_progress_webhook true passing total cache fetch sinkOk
      = notifyCycle passing total (loadPrev cache).1 (loadPrev cache).2 fetch sinkOk := by
  simp [send_progress_webhook, h]

/-- A snapshot that is not in the legacy format ( nonempty ids, or zero count)
is not detected as the old cache format. -/
theorem isOld_false_of_nonlegacy (ids : List Nat) (c : Nat) (h : ids = [] → c = 0) :
    (ids.isEmpty && decide (0 < c)) = false := by
  cases ids with
  | nil => simp [h rfl]
  | cons a t => simp [List.isEmpty]

/-- Claim C1 (counterexample): with snapshot `{count:2, passing_ids:[1,2]}`,
`passing = 4`, and a failing `/features/all-passing` fetch, the cycle does
not abort: the persisted snapshot is rewritten to `{count:4, passing_ids:[]}`,
so it is not left unchanged as the claim states. -/
theorem fetch_failure_mutates_snapshot :
    (send_progress_webhook true 4 6 (.valid ⟨2, [1, 2]⟩) none true).finalCache
        = .valid ⟨4, []⟩ ∧
      (send_progress_webhook true 4 6 (.valid ⟨2, [1, 2]⟩) none true).finalCache
        ≠ .valid ⟨2, [1, 2]⟩ := by
  decide

/-- Claim C1 (amended): when the passing count exceeds the snapshot count but
the fetch of the current passing-id set fails, the cycle does not abort: it
still sends a notification whose completed-tests list is empty and rewrites
the persisted snapshot to `{count = passing, passing_ids = ∅}`, discarding the
per-item baseline. -/
theorem fetch_failure_continues (passing total : Nat) (cache : CacheFile)
    (sinkOk : Bool) (h : (loadPrev cache).1 < passing) :
    send_progress_webhook true passing total cache none sinkOk
      = { delivery := some
            ({ passing := passing, total := total,
               previous_passing := (loadPrev cache).1,
               tests_completed_this_session :=
                 (passing : Int) - ((loadPrev cache).1 : Int),
               completed_tests := [] }, sinkOk),
          finalCache := .valid ⟨passing, []⟩ } := by
  rw [send_notify _ _ _ _ _ h]
  cases ho : ((loadPrev cache).2.isEmpty && decide (0 < (loadPrev cache).1)) <;>
    simp [notifyCycle, processFeatures, ho]

/-- Claim C1 (witness): the amended behaviour at the counterexample input. -/
theorem fetch_failure_continues_witness :
    send_progress_webhook true 4 6 (.valid ⟨2, [1, 2]⟩) none false
      = { delivery := some
            ({ passing := 4, total := 6, previous_passing := 2,
               tests_completed_this_session := 2,
               completed_tests := [] }, false),
          finalCache := .valid ⟨4, []⟩ } :=
  (fetch_failure_continues 4 6 (.valid ⟨2, [1, 2]⟩) false (by decide)).trans (by decide)

/-- Claim C2: for a non-legacy snapshot, when the current passing count
exceeds the snapshot count the engine names exactly the fetched features
whose ids are in the set difference `current_passing_ids - snapshot.passing_ids`,
reports count delta `passing - snapshot.count`, and persists the snapshot
`{count = passing, passing_ids = current_passing_ids}`. -/
theorem diff_engine_correct (passing total : Nat) (s : Snapshot)
    (fs : List PassingFeature) (sinkOk : Bool)
    (hleg : s.passing_ids = [] → s.count = 0)
    (hlt : s.count < passing) :
    send_progress_webhook true passing total (.valid s) (some fs) sinkOk
        = { delivery := some
              ({ passing := passing, total := total, previous_passing := s.count,
                 tests_completed_this_session := (passing : Int) - (s.count : Int),
                 completed_tests :=
                   (fs.filter (fun f => !s.passing_ids.contains f.id)).map describe },
               sinkOk),
            finalCache := .valid ⟨passing, fs.map PassingFeature.id⟩ } ∧
      ∀ i : Nat,
        i ∈ (fs.filter (fun f => !s.passing_ids.contains f.id)).map PassingFeature.id ↔
          (i ∈ fs.map PassingFeature.id ∧ i ∉ s.passing_ids) := by
  have h : (loadPrev (.valid s)).1 < passing := hlt
  refine ⟨?_, fun i => newIds_eq_diff s.passing_ids fs i⟩
  rw [send_notify _ _ _ _ _ h]
  show notifyCycle passing total s.count s.passing_ids (some fs) sinkOk = _
  rw [notifyCycle]
  rw [isOld_false_of_nonlegacy s.passing_ids s.count hleg]
  simp [processFeatures_fst, processFeatures_snd_fresh]

/-- Claim C2 (witness): the spec's concrete instance — snapshot
`{count:2, passing_ids:[1,2]}`, current passing features with ids
`[1,2,3,5]` and `passing = 4` yield named new items for ids 3 and 5, count
delta 2, and new snapshot `{count:4, passing_ids:[1,2,3,5]}`. -/
theorem diff_engine_correct_witness :
    send_progress_webhook true 4 5 (.valid ⟨2, [1, 2]⟩)
        (some [⟨1, "auth", "login"⟩, ⟨2, "auth", "logout"⟩,
               ⟨3, "ui", "menu"⟩, ⟨5, "ui", "search"⟩]) true
      = { delivery := some
            ({ passing := 4, total := 5, previous_passing := 2,
               tests_completed_this_session := 2,
               completed_tests := ["ui menu", "ui search"] }, true),
          finalCache := .valid ⟨4, [1, 2, 3, 5]⟩ } :=
  ((diff_engine_correct 4 5 ⟨2, [1, 2]⟩
      [⟨1, "auth", "login"⟩, ⟨2, "auth", "logout"⟩,
       ⟨3, "ui", "menu"⟩, ⟨5, "ui", "search"⟩] true
      (by decide) (by decide)).1).trans (by decide)

/-- Claim C3: once the engine is in the notify branch (the branch that
attempts delivery), the snapshot `{count = passing,
passing_ids = current_passing_ids}` is persisted whether the sink call
succeeds or fails. -/
theorem delivery_failure_no_block (passing total : Nat) (cache : CacheFile)
    (fetch : Option (List PassingFeature))
    (h : (loadPrev cache).1 < passing) :
    ∀ sinkOk : Bool,
      (send_progress_webhook true passing total cache fetch sinkOk).finalCache
        = .valid ⟨passing, (fetch.getD []).map PassingFeature.id⟩ := by
  intro sinkOk
  rw [send_notify _ _ _ _ _ h]
  simp [notifyCycle, processFeatures_fst]

/-- Claim C3 (witness): with a failing sink, the new snapshot is still
written. -/
theorem delivery_failure_no_block_witness :
    (send_progress_webhook true 3 4 (.valid ⟨1, [7]⟩)
        (some [⟨7, "a", "x"⟩, ⟨8, "b", "y"⟩, ⟨9, "c", "z"⟩]) false).finalCache
      = .valid ⟨3, [7, 8, 9]⟩ :=
  (delivery_failure_no_block 3 4 (.valid ⟨1, [7]⟩)
      (some [⟨7, "a", "x"⟩, ⟨8, "b", "y"⟩, ⟨9, "c", "z"⟩]) (by decide) false).trans
    (by decide)

/-- Claim C4: for a legacy snapshot (empty ids, positive count), when the
passing count exceeds the snapshot count the engine reports only the
aggregate increase `passing - count` with an empty named-items list, and
persists `{count = passing, passing_ids = current_passing_ids}`. -/
theorem legacy_snapshot_degradation (passing total c : Nat)
    (fs : List PassingFeature) (sinkOk : Bool)
    (hc : 0 < c) (hlt : c < passing) :
    send_progress_webhook true passing total (.valid ⟨c, []⟩) (some fs) sinkOk
      = { delivery := some
            ({ passing := passing, total := total, previous_passing := c,
               tests_completed_this_session := (passing : Int) - (c : Int),
               completed_tests := [] }, sinkOk),
          finalCache := .valid ⟨passing, fs.map PassingFeature.id⟩ } := by
  have h : (loadPrev (.valid ⟨c, []⟩)).1 < passing := hlt
  rw [send_notify _ _ _ _ _ h]
  show notifyCycle passing total c [] (some fs) sinkOk = _
  rw [notifyCycle]
  have ho : (List.isEmpty ([] : List Nat) && decide (0 < c)) = true := by
    simp [hc]
  rw [ho]
  simp [processFeatures_fst, processFeatures_snd_legacy]

/-- Claim C4 (witness): the spec's concrete instance — snapshot
`{count:3, passing_ids:[]}` and current passing ids `[1,2,3,4]` report an
aggregate increase of 1 with an empty completed-tests list. -/
theorem legacy_snapshot_degradation_witness :
    send_progress_webhook true 4 4 (.valid ⟨3, []⟩)
        (some [⟨1, "c", "a"⟩, ⟨2, "c", "b"⟩, ⟨3, "c", "d"⟩, ⟨4, "c", "e"⟩]) true
      = { delivery := some
            ({ passing := 4, total := 4, previous_passing := 3,
               tests_completed_this_session := 1,
               completed_tests := [] }, true),
          finalCache := .valid ⟨4, [1, 2, 3, 4]⟩ } :=
  (legacy_snapshot_degradation 4 4 3
      [⟨1, "c", "a"⟩, ⟨2, "c", "b"⟩, ⟨3, "c", "d"⟩, ⟨4, "c", "e"⟩] true
      (by decide) (by decide)).trans (by decide)

/-- Claim C9: on a first invocation with no persisted snapshot, the engine
persists a snapshot built from the current passing state — via the notify
branch when `passing > 0`, via the bootstrap branch otherwise — so a snapshot
exists afterwards. -/
theorem first_run_creates_snapshot (passing total : Nat)
    (fetch : Option (List PassingFeature)) (sinkOk : Bool) (_htotal : 0 < total) :
    (send_progress_webhook true passing total .absent fetch sinkOk).finalCache
      = .valid ⟨passing, (fetch.getD []).map PassingFeature.id⟩ := by
  by_cases hp : 0 < passing
  · have h : (loadPrev .absent).1 < passing := hp
    rw [send_notify _ _ _ _ _ h]
    simp [notifyCycle, processFeatures_fst]
  · have hp0 : passing = 0 := by omega
    subst hp0
    simp [send_progress_webhook, loadPrev, bootstrapCycle]

/-- Claim C9 (witness): a first run with one passing feature persists
`{count:1, passing_ids:[1]}`. -/
theorem first_run_creates_snapshot_witness :
    (send_progress_webhook true 1 2 .absent (some [⟨1, "c", "a"⟩]) true).finalCache
      = .valid ⟨1, [1]⟩ :=
  (first_run_creates_snapshot 1 2 (some [⟨1, "c", "a"⟩]) true (by decide)).trans
    (by decide)

/-- Claim C10: an unparseable snapshot file is treated as `count = 0` with
empty `passing_ids`: with any feature currently passing, the cycle runs the
notify branch from a fresh baseline and re-reports every currently-passing
feature as newly passing, then persists the current state. -/
theorem corrupt_cache_fresh_baseline (passing total : Nat)
    (fs : List PassingFeature) (sinkOk : Bool) (hp : 0 < passing) :
    send_progress_webhook true passing total .corrupt (some fs) sinkOk
      = { delivery := some
            ({ passing := passing, total := total, previous_passing := 0,
               tests_completed_this_session := (passing : Int),
               completed_tests := fs.map describe }, sinkOk),
          finalCache := .valid ⟨passing, fs.map PassingFeature.id⟩ } := by
  have h : (loadPrev .corrupt).1 < passing := hp
  rw [send_notify _ _ _ _ _ h]
  show notifyCycle passing total 0 [] (some fs) sinkOk = _
  rw [notifyCycle]
  simp only [List.isEmpty_nil, Nat.lt_irrefl, decide_False, Bool.and_false]
  have hfs : (fs.filter (fun f => !List.contains [] f.id)) = fs := by
    simp [List.filter_eq_self]
  simp [processFeatures_fst, processFeatures_snd_fresh, hfs]

/-- Claim C10 (witness): a corrupt cache with two passing features re-reports
both of them and persists `{count:2, passing_ids:[4,9]}`. -/
theorem corrupt_cache_fresh_baseline_witness :
    send_progress_webhook true 2 3 .corrupt
        (some [⟨4, "api", "list"⟩, ⟨9, "", "cleanup"⟩]) true
      = { delivery := some
            ({ passing := 2, total := 3, previous_passing := 0,
               tests_completed_this_session := 2,
               completed_tests := ["api list", "cleanup"] }, true),
          finalCache := .valid ⟨2, [4, 9]⟩ } :=
  (corrupt_cache_fresh_baseline 2 3 [⟨4, "api", "list"⟩, ⟨9, "", "cleanup"⟩] true
      (by decide)).trans (by decide)

/-- Every row's priority is bounded by the maximum-priority row, which exists
whenever the table is nonempty. -/
theorem mem_le_maxPriorityRow (db : List Feature) (f : Feature) (hf : f ∈ db) :
    ∃ m, maxPriorityRow db = some m ∧ f.priority ≤ m := by
  induction db with
  | nil => cases hf
  | cons g rest ih =>
    rcases List.mem_cons.mp hf with h | h
    · subst h
      cases hmr : maxPriorityRow rest with
      | none => exact ⟨f.priority, by simp [maxPriorityRow, hmr]⟩
      | some m => exact ⟨max f.priority m, by simp [maxPriorityRow, hmr], le_max_left _ _⟩
    · obtain ⟨m, hm, hle⟩ := ih h
      exact ⟨max g.priority m, by simp [maxPriorityRow, hm],
        le_trans hle (le_max_right _ _)⟩

/-- The priority rewrite touches exactly the first row whose id matches: that
row keeps every other field, and every other position is unchanged. -/
theorem setPriorityFirst_spec (db : List Feature) (fid : Nat) (p : Int)
    (f : Feature) (hf : db.find? (fun g => g.id == fid) = some f) :
    ∃ j, db.get? j = some f ∧
      (setPriorityFirst db fid p).get? j = some { f with priority := p } ∧
      ∀ i, i ≠ j → (setPriorityFirst db fid p).get? i = db.get? i := by
  induction db with
  | nil => simp [List.find?] at hf
  | cons g rest ih =>
    by_cases hg : (g.id == fid) = true
    · rw [List.find?_cons_of_pos (p := fun g => g.id == fid) rest hg] at hf
      obtain rfl : g = f := by injection hf
      refine ⟨0, rfl, by simp [setPriorityFirst, hg], ?_⟩
      intro i hi
      match i with
      | 0 => exact absurd rfl hi
      | Nat.succ k => simp [setPriorityFirst, hg]
    · rw [List.find?_cons_of_neg (p := fun g => g.id == fid) rest hg] at hf
      obtain ⟨j, h1, h2, h3⟩ := ih hf
      refine ⟨j + 1, by simpa using h1, by simpa [setPriorityFirst, hg] using h2, ?_⟩
      intro i hi
      match i with
      | 0 => simp [setPriorityFirst, hg]
      | Nat.succ k =>
        have hk : k ≠ j := fun hkj => hi (by rw [hkj])
        simpa [setPriorityFirst, hg] using h3 k hk

/-- Claim C6: skipping a non-passing feature succeeds, sets its priority to
the maximum existing priority plus one (strictly above its old priority),
changes no other field of that row — in particular `passes` — and leaves
every other row of the store untouched. -/
theorem skip_nonpassing_spec (db : List Feature) (fid : Nat) (f : Feature)
    (hf : db.find? (fun g => g.id == fid) = some f)
    (hnp : f.passes = false) :
    ∃ m, maxPriorityRow db = some m ∧ f.priority ≤ m ∧
      skip_feature db fid = .ok (setPriorityFirst db fid (m + 1),
        { id := f.id, name := f.name, old_priority := f.priority,
          new_priority := m + 1 }) ∧
      f.priority < m + 1 ∧
      ∃ j, db.get? j = some f ∧
        (setPriorityFirst db fid (m + 1)).get? j = some { f with priority := m + 1 } ∧
        ∀ i, i ≠ j → (setPriorityFirst db fid (m + 1)).get? i = db.get? i := by
  have hmem : f ∈ db := List.mem_of_find?_eq_some hf
  obtain ⟨m, hm, hle⟩ := mem_le_maxPriorityRow db f hmem
  refine ⟨m, hm, hle, ?_, by omega, setPriorityFirst_spec db fid (m + 1) f hf⟩
  simp [skip_feature, hf, hnp, hm]

/-- Claim C6 (witness): skipping pending feature 1 in the demo store moves it
from priority 1 to priority 4 = max(1,2,3) + 1. -/
theorem skip_nonpassing_spec_witness :
    ∃ m, maxPriorityRow demoSkipDb = some m ∧ demoSkipF1.priority ≤ m ∧
      skip_feature demoSkipDb 1 = .ok (setPriorityFirst demoSkipDb 1 (m + 1),
        { id := demoSkipF1.id, name := demoSkipF1.name,
          old_priority := demoSkipF1.priority, new_priority := m + 1 }) ∧
      demoSkipF1.priority < m + 1 ∧
      ∃ j, demoSkipDb.get? j = some demoSkipF1 ∧
        (setPriorityFirst demoSkipDb 1 (m + 1)).get? j
          = some { demoSkipF1 with priority := m + 1 } ∧
        ∀ i, i ≠ j →
          (setPriorityFirst demoSkipDb 1 (m + 1)).get? i = demoSkipDb.get? i :=
  skip_nonpassing_spec demoSkipDb 1 demoSkipF1 (by decide) (by decide)

/-- Claim C7: skipping a feature that already passes is rejected with the
invalid-state (400) outcome, and the store is unchanged. -/
theorem skip_passing_spec (db : List Feature) (fid : Nat) (f : Feature)
    (hf : db.find? (fun g => g.id == fid) = some f)
    (hp : f.passes = true) :
    skip_feature db fid = .error .invalidState ∧
      skip_feature_store db fid = db := by
  constructor
  · simp [skip_feature, hf, hp]
  · simp [skip_feature_store, skip_feature, hf, hp]

/-- Claim C7 (witness): skipping the passing feature 3 of the demo store is
rejected and mutates nothing. -/
theorem skip_passing_spec_witness :
    skip_feature demoSkipDb 3 = .error .invalidState ∧
      skip_feature_store demoSkipDb 3 = demoSkipDb :=
  skip_passing_spec demoSkipDb 3 demoSkipF3 (by decide) (by decide)

/-- The Boolean row order agrees with the lexicographic `(priority, id)`
order. -/
theorem featureLeB_iff_lexLe (a b : Feature) : featureLeB a b = true ↔ lexLe a b := by
  simp [featureLeB, lexLe]

/-- The row order is reflexive. -/
theorem featureLeB_refl (a : Feature) : featureLeB a a = true := by
  simp [featureLeB]

/-- The row order is total. -/
theorem featureLeB_total (a b : Feature) :
    featureLeB a b = true ∨ featureLeB b a = true := by
  simp only [featureLeB, Bool.or_eq_true, Bool.and_eq_true, decide_eq_true_eq]
  omega

/-- The row order is transitive. -/
theorem featureLeB_trans (a b c : Feature)
    (h1 : featureLeB a b = true) (h2 : featureLeB b c = true) :
    featureLeB a c = true := by
  simp only [featureLeB, Bool.or_eq_true, Bool.and_eq_true, decide_eq_true_eq] at *
  omega

/-- Running minimum with a seeded accumulator: the result exists, is the seed
or a list element, and is below the seed and every list element. -/
theorem selectMin_some (g : Feature) (l : List Feature) :
    ∃ f, selectMin (some g) l = some f ∧ (f = g ∨ f ∈ l) ∧
      featureLeB f g = true ∧ ∀ x ∈ l, featureLeB f x = true := by
  induction l generalizing g with
  | nil => exact ⟨g, rfl, Or.inl rfl, featureLeB_refl g, by simp⟩
  | cons a rest ih =>
    obtain ⟨f, hsel, hmem, hle, hall⟩ := ih (if featureLeB g a then g else a)
    have hstep : selectMin (some g) (a :: rest)
        = selectMin (some (if featureLeB g a then g else a)) rest := rfl
    have hfg : featureLeB f g = true := by
      by_cases h : featureLeB g a = true
      · rwa [if_pos h] at hle
      · rw [if_neg h] at hle
        exact featureLeB_trans f a g hle ((featureLeB_total g a).resolve_left h)
    have hfa : featureLeB f a = true := by
      by_cases h : featureLeB g a = true
      · rw [if_pos h] at hle
        exact featureLeB_trans f g a hle h
      · rwa [if_neg h] at hle
    refine ⟨f, hstep.trans hsel, ?_, hfg, ?_⟩
    · rcases hmem with hm | hm
      · by_cases h : featureLeB g a = true
        · rw [if_pos h] at hm; exact Or.inl hm
        · rw [if_neg h] at hm; exact Or.inr (hm ▸ List.mem_cons_self a rest)
      · exact Or.inr (List.mem_cons_of_mem a hm)
    · intro x hx
      rcases List.mem_cons.mp hx with hx | hx
      · exact hx ▸ hfa
      · exact hall x hx

/-- The running minimum over the pending rows is empty exactly when there are
no pending rows. -/
theorem selectMin_none_iff (l : List Feature) :
    selectMin none l = none ↔ l = [] := by
  cases l with
  | nil => simp [selectMin]
  | cons a rest =>
    obtain ⟨f, hsel, -, -, -⟩ := selectMin_some a rest
    have hstep : selectMin none (a :: rest) = selectMin (some a) rest := rfl
    simp [hstep, hsel]

/-- Claim C8: `get_next_feature` returns 404 (`none`) exactly when every
feature passes, and any returned feature is a pending feature of the store
that is `(priority, id)`-lexicographically minimal among all pending
features. -/
theorem next_pending_spec (db : List Feature) :
    (get_next_feature db = none ↔ ∀ f ∈ db, f.passes = true) ∧
      ∀ f, get_next_feature db = some f →
        f ∈ db ∧ f.passes = false ∧ ∀ g ∈ db, g.passes = false → lexLe f g := by
  constructor
  · rw [get_next_feature, selectMin_none_iff, List.filter_eq_nil_iff]
    simp
  · intro f hf
    rw [get_next_feature] at hf
    cases hl : db.filter (fun x => x.passes == false) with
    | nil => rw [hl] at hf; simp [selectMin] at hf
    | cons a rest =>
      rw [hl] at hf
      obtain ⟨f2, hsel, hmem, hle, hall⟩ := selectMin_some a rest
      have hstep : selectMin none (a :: rest) = selectMin (some a) rest := rfl
      rw [hstep, hsel] at hf
      have hf2 : f2 = f := by injection hf
      rw [hf2] at hmem hle hall
      have hfl : f ∈ db.filter (fun x => x.passes == false) := by
        rw [hl]
        rcases hmem with hm | hm
        · exact hm ▸ List.mem_cons_self a rest
        · exact List.mem_cons_of_mem a hm
      have hfilter := List.mem_filter.mp hfl
      refine ⟨hfilter.1, by simpa using hfilter.2, ?_⟩
      intro g hg hgp
      have hgl : g ∈ db.filter (fun x => x.passes == false) :=
        List.mem_filter.mpr ⟨hg, by simp [hgp]⟩
      rw [hl] at hgl
      rcases List.mem_cons.mp hgl with h | h
      · exact (featureLeB_iff_lexLe f g).mp (h ▸ hle)
      · exact (featureLeB_iff_lexLe f g).mp (hall g h)

/-- Claim C8 (witness): in the demo store the returned feature is the pending
row with the minimal `(priority, id)` pair. -/
theorem next_pending_spec_witness :
    demoNextF2 ∈ demoNextDb ∧ demoNextF2.passes = false :=
  ⟨((next_pending_spec demoNextDb).2 demoNextF2 (by decide)).1,
   ((next_pending_spec demoNextDb).2 demoNextF2 (by decide)).2.1⟩

/-- Claim C5 (counterexample): a request with caller-supplied `limit = 10` is
rejected with a validation error by the declared `Query(ge=1, le=5)`
constraint; the limit is not silently bounded to 5, and no page is returned. -/
theorem list_limit_rejected :
    list_features [] 10 0 none none false (fun l => l) = .validationError := by
  decide

/-- Claim C5 (amended): a caller-supplied `limit` outside `[1, 5]` (or a
negative `offset`) causes the request to be rejected with a validation error;
every accepted request returns a page of at most 5 features. -/
theorem list_limit_cap (db : List Feature) (limit offset : Int)
    (passes : Option Bool) (category : Option String) (random : Bool)
    (shuffle : List Feature → List Feature) :
    (¬(1 ≤ limit ∧ limit ≤ 5 ∧ 0 ≤ offset) →
      list_features db limit offset passes category random shuffle
        = .validationError) ∧
    ∀ fs t l o, list_features db limit offset passes category random shuffle
        = .page fs t l o → fs.length ≤ 5 := by
  constructor
  · intro h
    simp [list_features, h]
  · intro fs t l o h
    by_cases hv : 1 ≤ limit ∧ limit ≤ 5 ∧ 0 ≤ offset
    · rw [list_features, if_pos hv] at h
      have hlen : fs.length ≤ limit.toNat := by
        cases random with
        | true =>
          cases h
          exact List.length_take_le _ _
        | false =>
          cases h
          exact List.length_take_le _ _
      have : limit.toNat ≤ 5 := by omega
      omega
    · rw [list_features, if_neg hv] at h
      cases h

/-- Claim C5 (witness): an in-range request over the six-row demo store
returns a page of at most 5 features. -/
theorem list_limit_cap_witness :
    [demoListF 1, demoListF 2, demoListF 3, demoListF 4, demoListF 5].length ≤ 5 :=
  (list_limit_cap demoListDb 5 0 none none false (fun l => l)).2
    [demoListF 1, demoListF 2, demoListF 3, demoListF 4, demoListF 5] 6 5 0
    (by decide)
